import Mathlib

/-!
Verification development for the SPIKE Prime motor-pair scripts
(`motor_pair_straight.py`, `motor_pair_lib.py`, `kiwis/jimi/motor-pair/draw_square.py`).

Numerics are modelled over the rationals: the Python sources only ever use the
fixed constant `3.14159`, decimal literals and exact arithmetic on them, so
every value appearing in the code is an exact rational.  Python `int(x)`
truncates toward zero and is modelled by `pyInt`.  The vendor actuation layer
(the try/except ladders around `motor_pair.move_tank`, `motor.run`,
`motor_pair.stop`, ...) is modelled at the granularity of the abstract
actuation interface of the design: one logical `tank l r` command per
start/correction site and one logical `stop` command per stop site, with fault
flags in the environment deciding whether the whole fallback ladder at a site
raises.  The orientation sensor is a sequence of read results; a reading of
`none` models `motion_sensor.tilt_angles()` raising an exception.  A controller
run that propagates a Python exception to its caller is modelled as `none`.
-/

/-- Python `int()` conversion applied to an exact rational: truncation toward
zero (`-⌊-q⌋` is the ceiling of `q`, written through `⌊⌋` only). -/
def pyInt (q : ℚ) : ℤ := if 0 ≤ q then ⌊q⌋ else -⌊-q⌋

/-- `inches_to_degrees` from `motor_pair_straight.py` (lines 77-81):
`circumference = 3.14159 * wheel_diameter; return int(inches / circumference * 360)`.
A zero circumference makes the Python float division raise `ZeroDivisionError`,
modelled by `none`. -/
def inches_to_degrees (inches wheel_diameter : ℚ) : Option ℤ :=
  let circumference : ℚ := 3.14159 * wheel_diameter
  if circumference = 0 then none
  else some (pyInt (inches / circumference * 360))

/-- `inches_to_degrees` from `motor_pair_lib.py` (lines 47-50): the same formula
with the wheel diameter fixed to the module constant `WHEEL_DIAMETER = 2.0`. -/
def inches_to_degreesLib (inches : ℚ) : ℤ :=
  pyInt (inches / (3.14159 * 2) * 360)

/-- `degrees_to_wheel_degrees` from `motor_pair_lib.py` (lines 52-57):
`wheel_travel = WHEEL_BASE * 3.14159 * turn_degrees / 360` with
`WHEEL_BASE = 4.5`, then converted through `inches_to_degrees`. -/
def degrees_to_wheel_degrees (turn_degrees : ℚ) : ℤ :=
  inches_to_degreesLib ((9/2) * 3.14159 * turn_degrees / 360)

/-- `calculate_turn_degrees` from `draw_square.py` (lines 28-33):
`arc_length = (angle / 360) * PI * WHEEL_BASE;
degrees = (arc_length / (PI * WHEEL_DIAMETER)) * 360` with
`PI = 3.14159`, `WHEEL_BASE = 4.5`, `WHEEL_DIAMETER = 2.0`. -/
def calculate_turn_degrees (angle : ℚ) : ℤ :=
  pyInt ((angle / 360) * 3.14159 * (9/2) / (3.14159 * 2) * 360)

/-- `get_yaw_angle` from both library files: returns the sensor reading, and `0`
when `motion_sensor.tilt_angles()` raises (the reading is `none`). -/
def get_yaw_angle (reading : Option ℚ) : ℚ := reading.getD 0

/-- One abstract command to the actuation interface: a (left, right) speed pair
or an immediate stop.  Each try/except fallback ladder of the source issues one
logical command here. -/
inductive Cmd where
  | tank (left right : ℚ)
  | stop
deriving DecidableEq

/-- The external world of one controller invocation.  `sensor k` is the result
of the k-th orientation-sensor read (`none` = the read raises, counted from the
read of the initial yaw at index 0).  `startFault` says whether the motor-start
command ladder raises through all its fallbacks; `moveFault k` says whether the
corrective command issued at loop iteration `k` raises through all fallbacks. -/
structure Env where
  sensor : ℕ → Option ℚ
  startFault : Bool
  moveFault : ℕ → Bool

/-- Observable outcome of one `move_straight_with_gyro` call: the commands
issued to the actuation interface in order, the final value of the `iterations`
counter, the `error` value observed by each executed loop body, the printed
drift `final_yaw - initial_yaw` (`0` on the exception path, where it is not
computed), and the returned boolean. -/
structure StraightRun where
  cmds : List Cmd
  iterations : ℕ
  errors : List ℚ
  finalError : ℚ
  ret : Bool
deriving DecidableEq

/-- Observable outcome of one `turn_right` / `turn_left` call: commands issued,
final `iterations` counter, the yaw value observed by each executed loop body,
and the returned boolean. -/
structure TurnRun where
  cmds : List Cmd
  iterations : ℕ
  samples : List ℚ
  ret : Bool
deriving DecidableEq

/-- The corrective command computed by the straight-drive loop body of
`move_straight_with_gyro` (`motor_pair_straight.py` lines 366-392) when
`abs(error) > 1`: `steering = -int(error * kp)` with `kp = 1.5`, clamped to
`[-100, 100]`, then `left = max(10, min(100, speed - steering))` and
`right = max(10, min(100, speed + steering))`. -/
def codeSteerCmd (speed error : ℚ) : Cmd :=
  let steering : ℤ := max (-100) (min 100 (-(pyInt (error * (3/2)))))
  Cmd.tank (max 10 (min 100 (speed - (steering : ℚ))))
           (max 10 (min 100 (speed + (steering : ℚ))))

/-- The `while iterations < estimated_iterations and iterations < max_iterations`
loop of `move_straight_with_gyro` (lines 352-395).  The body first increments
`iterations`, then samples yaw (read index = the incremented counter), computes
`error = current_yaw - initial_yaw` and, when `abs(error) > 1`, issues the
corrective command; a fault of that command (all fallbacks raising) aborts the
loop with the flag `true`.  `fuel` is an upper bound on the remaining
iterations; the caller passes `max_iterations`, which suffices because the
guard requires `iters < max_iterations`.  Result: final counter, commands,
observed errors, fault flag. -/
def straightLoop (env : Env) (speed initial : ℚ) (est : ℤ) (maxIter : ℕ) :
    ℕ → ℕ → List Cmd → List ℚ → ℕ × List Cmd × List ℚ × Bool
  | 0, iters, cmds, errs => (iters, cmds, errs, false)
  | fuel+1, iters, cmds, errs =>
    if (iters : ℤ) < est ∧ iters < maxIter then
      let current := get_yaw_angle (env.sensor (iters + 1))
      let error := current - initial
      if 1 < |error| then
        let cmds' := cmds ++ [codeSteerCmd speed error]
        if env.moveFault (iters + 1) then (iters + 1, cmds', errs ++ [error], true)
        else straightLoop env speed initial est maxIter fuel (iters + 1) cmds' (errs ++ [error])
      else straightLoop env speed initial est maxIter fuel (iters + 1) cmds (errs ++ [error])
    else (iters, cmds, errs, false)

/-- `move_straight_with_gyro(distance_inches, speed, max_iterations)` from
`motor_pair_straight.py` (lines 292-428).  `speed = 0` makes
`iterations_per_inch = 15 * (30.0 / speed)` raise `ZeroDivisionError` before
any motion (`none`).  Otherwise: `estimated_iterations = int(distance *
iterations_per_inch)`; reset yaw and read the initial yaw (read 0); start the
motors (one tank command at `(speed, speed)`); run the correction loop; on its
exit for any reason - normal, timeout, or a fault caught by the outer
`except` - issue one stop command.  On the normal path the final yaw is read
and the function returns `not timeout`, i.e. `iterations < max_iterations`;
on the fault path it returns `False`. -/
def move_straight_with_gyro (env : Env) (distance speed : ℚ) (maxIter : ℕ) :
    Option StraightRun :=
  if speed = 0 then none
  else
    let iterations_per_inch : ℚ := 15 * (30 / speed)
    let est : ℤ := pyInt (distance * iterations_per_inch)
    let initial := get_yaw_angle (env.sensor 0)
    if env.startFault then
      -- the start ladder raised through all fallbacks; the outer except
      -- stops the motors and returns False
      some ⟨[Cmd.tank speed speed, Cmd.stop], 0, [], 0, false⟩
    else
      match straightLoop env speed initial est maxIter maxIter 0 [Cmd.tank speed speed] [] with
      | (iters, cmds, errs, true) =>
        some ⟨cmds ++ [Cmd.stop], iters, errs, 0, false⟩
      | (iters, cmds, errs, false) =>
        some ⟨cmds ++ [Cmd.stop], iters, errs,
              get_yaw_angle (env.sensor (iters + 1)) - initial,
              decide (iters < maxIter)⟩

/-- The `while iterations < max_iterations` polling loop shared by `turn_right`
and `turn_left` (`motor_pair_lib.py` lines 460-472 and 529-541).  Each body
execution samples yaw once (read index = number of samples taken so far, plus
one for the initial read), breaks without incrementing when the stop condition
holds, and otherwise increments the counter.  Result: final counter and the
observed samples. -/
def turnLoop (env : Env) (cond : ℚ → Bool) (maxIter : ℕ) :
    ℕ → ℕ → List ℚ → ℕ × List ℚ
  | 0, iters, samples => (iters, samples)
  | fuel+1, iters, samples =>
    if iters < maxIter then
      let current := get_yaw_angle (env.sensor (samples.length + 1))
      if cond current then (iters, samples ++ [current])
      else turnLoop env cond maxIter fuel (iters + 1) (samples ++ [current])
    else (iters, samples)

/-- `turn_right(degrees)` from `motor_pair_lib.py` (lines 414-481).
`degrees <= 0` returns `False` immediately, before the yaw reset and before any
command.  Otherwise: read the initial yaw (read 0), `target_yaw = initial_yaw -
degrees`, start the turn with one tank command `(30, -30)` (`DEFAULT_SPEED =
30`); if the start ladder raises through all fallbacks the exception propagates
out of `turn_right` (there is no surrounding try), modelled as `none`.  The
loop polls with stop condition `current_yaw <= target_yaw + 3` and cap 300;
afterwards one stop command is issued and `iterations < 300` is returned. -/
def turn_right (env : Env) (degrees : ℚ) : Option TurnRun :=
  if degrees ≤ 0 then some ⟨[], 0, [], false⟩
  else
    let initial := get_yaw_angle (env.sensor 0)
    let target := initial - degrees
    if env.startFault then none
    else
      let res := turnLoop env (fun y => decide (y ≤ target + 3)) 300 300 0 []
      some ⟨[Cmd.tank 30 (-30), Cmd.stop], res.1, res.2, decide (res.1 < 300)⟩

/-- `turn_left(degrees)` from `motor_pair_lib.py` (lines 483-550): symmetric to
`turn_right` with `target_yaw = initial_yaw + degrees`, start command
`(-30, 30)` and stop condition `current_yaw >= target_yaw - 3`. -/
def turn_left (env : Env) (degrees : ℚ) : Option TurnRun :=
  if degrees ≤ 0 then some ⟨[], 0, [], false⟩
  else
    let initial := get_yaw_angle (env.sensor 0)
    let target := initial + degrees
    if env.startFault then none
    else
      let res := turnLoop env (fun y => decide (target - 3 ≤ y)) 300 300 0 []
      some ⟨[Cmd.tank (-30) 30, Cmd.stop], res.1, res.2, decide (res.1 < 300)⟩

/-! ### Fixed environments used by concrete runs below -/

/-- An environment whose sensor always reads yaw 0 and where no actuation
command faults. -/
def envZero : Env := ⟨fun _ => some 0, false, fun _ => false⟩

/-- An environment whose sensor reads 0 initially and 3 afterwards (a constant
3-degree heading error), with no actuation faults. -/
def envErr3 : Env := ⟨fun k => if k = 0 then some 0 else some 3, false, fun _ => false⟩

/-- An environment whose sensor raises on every read, with no actuation
faults. -/
def envNone : Env := ⟨fun _ => none, false, fun _ => false⟩

/-- The corrective command exactly as the specification words it (for
comparison with `codeSteerCmd`): `steering = clamp(-error * proportionalGain,
-100, 100)` with gain 1.5 and no integer truncation, then both speeds clamped
to `[minSpeed, maxSpeed] = [10, 100]`. -/
def specSteerCmd (nominal error : ℚ) : Cmd :=
  let steering : ℚ := max (-100) (min 100 (-(error * (3/2))))
  Cmd.tank (max 10 (min 100 (nominal - steering)))
           (max 10 (min 100 (nominal + steering)))

/-! ### Basic facts about truncation toward zero -/

lemma pyInt_floor_of_nonneg {q : ℚ} (h : 0 ≤ q) : pyInt q = ⌊q⌋ := if_pos h

lemma pyInt_zero : pyInt 0 = 0 := by simp [pyInt]

/-- Truncation toward zero is weakly monotone. -/
lemma pyInt_mono {a b : ℚ} (h : a ≤ b) : pyInt a ≤ pyInt b := by
  unfold pyInt
  by_cases ha : 0 ≤ a
  · rw [if_pos ha, if_pos (le_trans ha h)]
    exact Int.floor_le_floor h
  · rw [if_neg ha]
    by_cases hb : 0 ≤ b
    · rw [if_pos hb]
      have h1 : -⌊-a⌋ ≤ 0 := by
        have hfa : (0:ℤ) ≤ ⌊-a⌋ := Int.le_floor.mpr (by push_cast; linarith [not_le.mp ha])
        omega
      have h2 : (0:ℤ) ≤ ⌊b⌋ := Int.le_floor.mpr (by exact_mod_cast hb)
      omega
    · rw [if_neg hb]
      have := Int.floor_le_floor (neg_le_neg h)
      omega

/-- For every rational, `⌊2x⌋` is `2⌊x⌋` or `2⌊x⌋ + 1`. -/
lemma floor_two_mul_bounds (x : ℚ) : 2 * ⌊x⌋ ≤ ⌊2 * x⌋ ∧ ⌊2 * x⌋ ≤ 2 * ⌊x⌋ + 1 := by
  constructor
  · refine Int.le_floor.mpr ?_
    push_cast
    nlinarith [Int.floor_le x]
  · have : ⌊2 * x⌋ < 2 * ⌊x⌋ + 2 := by
      refine Int.floor_lt.mpr ?_
      push_cast
      nlinarith [Int.lt_floor_add_one x]
    omega

/-- The library turn conversion simplifies exactly: the two occurrences of the
named constant `3.14159` cancel, leaving `int(2.25 * turn_degrees)`. -/
lemma degrees_to_wheel_degrees_eq (t : ℚ) :
    degrees_to_wheel_degrees t = pyInt ((9/4) * t) := by
  unfold degrees_to_wheel_degrees inches_to_degreesLib
  congr 1
  ring

/-- `draw_square.py`'s `calculate_turn_degrees` computes the same value as the
library's `degrees_to_wheel_degrees` (the logic is duplicated verbatim). -/
lemma calculate_turn_degrees_eq (t : ℚ) :
    calculate_turn_degrees t = degrees_to_wheel_degrees t := by
  rw [degrees_to_wheel_degrees_eq]
  unfold calculate_turn_degrees
  congr 1
  ring

/-! ### C6: behaviour of the distance conversion on non-positive diameters -/

/-- C6 counterexample: the claim says every `wheelDiameter <= 0` fails, but the
code has no geometry check at all; a negative diameter flows through the
arithmetic and returns a numeric result (`inches_to_degrees(1, -2) = -57`). -/
theorem C6_counterexample :
    ¬ ∀ (inches d : ℚ), d ≤ 0 → inches_to_degrees inches d = none := by
  intro h
  have h2 := h 1 (-2) (by norm_num)
  have h3 : inches_to_degrees 1 (-2) = some (-57) := by
    norm_num [inches_to_degrees, pyInt]
  rw [h3] at h2
  exact Option.noConfusion h2

/-- C6 (amended): `inches_to_degrees` fails (Python `ZeroDivisionError`, the
only failure the code can produce) exactly when `wheelDiameter = 0`; for a
negative diameter it returns a numeric result instead of failing. -/
theorem C6_inches_to_degrees_fails_iff_zero (inches d : ℚ) :
    inches_to_degrees inches d = none ↔ d = 0 := by
  by_cases hd : d = 0
  · subst hd; simp [inches_to_degrees]
  · have hc : (3.14159 : ℚ) * d ≠ 0 := mul_ne_zero (by norm_num) hd
    simp [inches_to_degrees, hc, hd]

/-! ### C7: monotonicity of the distance conversion -/

/-- C7 counterexample: because the result is truncated to an integer, the
conversion is not strictly increasing in distance: `0 < 1/1000` but both map
to `0` wheel degrees (diameter 2.0, the configured geometry). -/
theorem C7_counterexample :
    ¬ ∀ (a b : ℚ) (x y : ℤ), a < b →
      inches_to_degrees a 2 = some x → inches_to_degrees b 2 = some y → x < y := by
  intro h
  have h2 := h 0 (1/1000) 0 0 (by norm_num)
    (by norm_num [inches_to_degrees, pyInt])
    (by norm_num [inches_to_degrees, pyInt])
  exact absurd h2 (lt_irrefl 0)

/-- C7 (amended): for fixed positive wheel geometry, `inches_to_degrees` maps
distance 0 to 0 degrees and is weakly monotone in the distance (strictness is
lost to the `int()` truncation). -/
theorem C7_inches_to_degrees_monotone (d : ℚ) (hd : 0 < d) :
    inches_to_degrees 0 d = some 0 ∧
    ∀ (a b : ℚ) (x y : ℤ), a ≤ b →
      inches_to_degrees a d = some x → inches_to_degrees b d = some y → x ≤ y := by
  have hc : (0:ℚ) < 3.14159 * d := by positivity
  have hc0 : (3.14159 : ℚ) * d ≠ 0 := ne_of_gt hc
  constructor
  · simp [inches_to_degrees, hc0, pyInt_zero]
  · intro a b x y hab ha hb
    simp only [inches_to_degrees, if_neg hc0, Option.some.injEq] at ha hb
    rw [← ha, ← hb]
    refine pyInt_mono ?_
    have h1 : a / (3.14159 * d) ≤ b / (3.14159 * d) := (div_le_div_iff_of_pos_right hc).mpr hab
    exact mul_le_mul_of_nonneg_right h1 (by norm_num)

/-- C7 witness: the amended monotonicity theorem applied at diameter 2.0 and
distances 1 and 2 inches (57 and 114 wheel degrees). -/
theorem C7_witness :
    inches_to_degrees 0 2 = some 0 ∧ (57 : ℤ) ≤ 114 :=
  ⟨(C7_inches_to_degrees_monotone 2 (by norm_num)).1,
   (C7_inches_to_degrees_monotone 2 (by norm_num)).2 1 2 57 114 (by norm_num)
     (by norm_num [inches_to_degrees, pyInt])
     (by norm_num [inches_to_degrees, pyInt])⟩

/-! ### C8: the turn-angle conversion -/

/-- C8 counterexample: exact linearity fails under truncation: doubling a
3-degree turn gives `int(2.25 * 6) = 13` wheel degrees, not
`2 * int(2.25 * 3) = 12`. -/
theorem C8_counterexample :
    ¬ ∀ t : ℚ, degrees_to_wheel_degrees (2 * t) = 2 * degrees_to_wheel_degrees t := by
  intro h
  have h2 := h 3
  have h6 : degrees_to_wheel_degrees (2 * 3) = 13 := by
    norm_num [degrees_to_wheel_degrees, inches_to_degreesLib, pyInt]
  have h3 : degrees_to_wheel_degrees 3 = 6 := by
    norm_num [degrees_to_wheel_degrees, inches_to_degreesLib, pyInt]
  rw [h6, h3] at h2
  norm_num at h2

/-- C8 (amended): `degrees_to_wheel_degrees` (= `calculate_turn_degrees`) maps
0 to 0 and is weakly monotone in the turn angle; the conversion is linear
before the final `int()` truncation, so doubling the angle doubles the result
only up to one wheel degree: for `t >= 0`,
`2*f(t) <= f(2*t) <= 2*f(t) + 1`. -/
theorem C8_degrees_to_wheel_degrees_props :
    degrees_to_wheel_degrees 0 = 0 ∧
    (∀ a b : ℚ, a ≤ b → degrees_to_wheel_degrees a ≤ degrees_to_wheel_degrees b) ∧
    ∀ t : ℚ, 0 ≤ t →
      2 * degrees_to_wheel_degrees t ≤ degrees_to_wheel_degrees (2 * t) ∧
      degrees_to_wheel_degrees (2 * t) ≤ 2 * degrees_to_wheel_degrees t + 1 := by
  refine ⟨?_, ?_, ?_⟩
  · rw [degrees_to_wheel_degrees_eq]
    norm_num [pyInt_zero]
  · intro a b hab
    rw [degrees_to_wheel_degrees_eq, degrees_to_wheel_degrees_eq]
    exact pyInt_mono (by nlinarith)
  · intro t ht
    rw [degrees_to_wheel_degrees_eq, degrees_to_wheel_degrees_eq,
      show (9/4 : ℚ) * (2 * t) = 2 * ((9/4) * t) by ring,
      pyInt_floor_of_nonneg (q := 2 * ((9/4 : ℚ) * t)) (by positivity),
      pyInt_floor_of_nonneg (q := (9/4 : ℚ) * t) (by positivity)]
    exact floor_two_mul_bounds ((9/4 : ℚ) * t)

/-- C8 witness: the amended theorem applied at turn angles 1 <= 2 and at
t = 3, where the conversion gives 6 and 13 wheel degrees. -/
theorem C8_witness :
    degrees_to_wheel_degrees 1 ≤ degrees_to_wheel_degrees 2 ∧
    2 * degrees_to_wheel_degrees 3 ≤ degrees_to_wheel_degrees (2 * 3) ∧
    degrees_to_wheel_degrees (2 * 3) ≤ 2 * degrees_to_wheel_degrees 3 + 1 :=
  ⟨C8_degrees_to_wheel_degrees_props.2.1 1 2 (by norm_num),
   (C8_degrees_to_wheel_degrees_props.2.2 3 (by norm_num)).1,
   (C8_degrees_to_wheel_degrees_props.2.2 3 (by norm_num)).2⟩

/-! ### Structure of the straight-drive loop trace -/

/-- Both components of any corrective command are clamped into `[10, 100]`. -/
lemma codeSteerCmd_bounds (speed error : ℚ) :
    ∀ l r : ℚ, codeSteerCmd speed error = Cmd.tank l r →
      10 ≤ l ∧ l ≤ 100 ∧ 10 ≤ r ∧ r ≤ 100 := by
  intro l r h
  unfold codeSteerCmd at h
  injection h with hl hr
  refine ⟨?_, ?_, ?_, ?_⟩
  · rw [← hl]; exact le_max_left _ _
  · rw [← hl]; exact max_le (by norm_num) (min_le_left _ _)
  · rw [← hr]; exact le_max_left _ _
  · rw [← hr]; exact max_le (by norm_num) (min_le_left _ _)

/-- A corrective command is never a stop command. -/
lemma codeSteerCmd_ne_stop (speed error : ℚ) : codeSteerCmd speed error ≠ Cmd.stop := by
  unfold codeSteerCmd
  exact fun h => Cmd.noConfusion h

/-- Trace decomposition of the straight-drive loop: on every exit (normal,
timeout, fuel exhaustion, or actuation fault) the observed errors extend the
accumulator, and the issued commands are exactly one corrective command per
observed error whose magnitude exceeds the 1-degree deadband, in order. -/
lemma straightLoop_spec (env : Env) (s initial : ℚ) (est : ℤ) (mI : ℕ) :
    ∀ (fuel iters : ℕ) (cmds : List Cmd) (errs : List ℚ),
      ∃ newErrs : List ℚ,
        (straightLoop env s initial est mI fuel iters cmds errs).2.2.1 = errs ++ newErrs ∧
        (straightLoop env s initial est mI fuel iters cmds errs).2.1 =
          cmds ++ (newErrs.filter fun e => decide (1 < |e|)).map (codeSteerCmd s) := by
  intro fuel
  induction fuel with
  | zero =>
    intro iters cmds errs
    exact ⟨[], by simp [straightLoop], by simp [straightLoop]⟩
  | succ fuel ih =>
    intro iters cmds errs
    by_cases hg : (iters : ℤ) < est ∧ iters < mI
    · simp only [straightLoop, if_pos hg]
      set error := get_yaw_angle (env.sensor (iters + 1)) - initial with herr
      by_cases h1 : 1 < |error|
      · rw [if_pos h1]
        by_cases hf : env.moveFault (iters + 1)
        · rw [if_pos hf]
          refine ⟨[error], by simp, ?_⟩
          simp [List.filter, h1]
        · rw [if_neg hf]
          obtain ⟨newErrs, he, hc⟩ :=
            ih (iters + 1) (cmds ++ [codeSteerCmd s error]) (errs ++ [error])
          refine ⟨error :: newErrs, by simpa using he, ?_⟩
          rw [hc]
          simp [List.filter_cons, h1]
      · rw [if_neg h1]
        obtain ⟨newErrs, he, hc⟩ := ih (iters + 1) cmds (errs ++ [error])
        refine ⟨error :: newErrs, by simpa using he, ?_⟩
        rw [hc]
        simp [List.filter_cons, h1]
    · simp only [straightLoop, if_neg hg]
      exact ⟨[], by simp, by simp⟩

/-- When no corrective command faults, the loop never takes the exception
path. -/
lemma straightLoop_noFault (env : Env) (s initial : ℚ) (est : ℤ) (mI : ℕ)
    (h : ∀ k, env.moveFault k = false) :
    ∀ (fuel iters : ℕ) (cmds : List Cmd) (errs : List ℚ),
      (straightLoop env s initial est mI fuel iters cmds errs).2.2.2 = false := by
  intro fuel
  induction fuel with
  | zero => intro iters cmds errs; simp [straightLoop]
  | succ fuel ih =>
    intro iters cmds errs
    by_cases hg : (iters : ℤ) < est ∧ iters < mI
    · simp only [straightLoop, if_pos hg]
      by_cases h1 : 1 < |get_yaw_angle (env.sensor (iters + 1)) - initial|
      · rw [if_pos h1, if_neg (by simp [h (iters + 1)])]
        exact ih _ _ _
      · rw [if_neg h1]
        exact ih _ _ _
    · simp [straightLoop, if_neg hg]

/-- When every loop-time sensor read raises, every observed error equals
`-initial` (the swallowed fault reads as yaw 0). -/
lemma straightLoop_errors_allFail (env : Env) (s initial : ℚ) (est : ℤ) (mI : ℕ)
    (h : ∀ k, 1 ≤ k → env.sensor k = none) :
    ∀ (fuel iters : ℕ) (cmds : List Cmd) (errs : List ℚ),
      ∀ e ∈ (straightLoop env s initial est mI fuel iters cmds errs).2.2.1,
        e ∈ errs ∨ e = -initial := by
  intro fuel
  induction fuel with
  | zero => intro iters cmds errs e he; simp only [straightLoop] at he; exact Or.inl he
  | succ fuel ih =>
    intro iters cmds errs e he
    by_cases hg : (iters : ℤ) < est ∧ iters < mI
    · simp only [straightLoop, if_pos hg] at he
      have herr : get_yaw_angle (env.sensor (iters + 1)) - initial = -initial := by
        rw [h (iters + 1) (by omega)]
        simp [get_yaw_angle]
      rw [herr] at he
      by_cases h1 : 1 < |(-initial : ℚ)|
      · rw [if_pos h1] at he
        by_cases hf : env.moveFault (iters + 1)
        · rw [if_pos hf] at he
          rcases List.mem_append.mp he with h2 | h2
          · exact Or.inl h2
          · exact Or.inr (List.mem_singleton.mp h2)
        · rw [if_neg hf] at he
          rcases ih _ _ _ e he with h2 | h2
          · rcases List.mem_append.mp h2 with h3 | h3
            · exact Or.inl h3
            · exact Or.inr (List.mem_singleton.mp h3)
          · exact Or.inr h2
      · rw [if_neg h1] at he
        rcases ih _ _ _ e he with h2 | h2
        · rcases List.mem_append.mp h2 with h3 | h3
          · exact Or.inl h3
          · exact Or.inr (List.mem_singleton.mp h3)
        · exact Or.inr h2
    · simp only [straightLoop, if_neg hg] at he
      exact Or.inl he

/-! ### Structure of the turn loop -/

/-- If the stop condition fails on every loop-time sensor read, the turn loop
runs to the iteration cap, taking exactly one sample per iteration. -/
lemma turnLoop_never (env : Env) (cond : ℚ → Bool) (mI : ℕ)
    (h : ∀ k, 1 ≤ k → cond (get_yaw_angle (env.sensor k)) = false) :
    ∀ (fuel iters : ℕ) (samples : List ℚ),
      samples.length = iters → iters + fuel = mI →
      (turnLoop env cond mI fuel iters samples).1 = mI ∧
      (turnLoop env cond mI fuel iters samples).2.length = mI := by
  intro fuel
  induction fuel with
  | zero =>
    intro iters samples hlen hsum
    have : iters = mI := by omega
    subst this
    simp [turnLoop, hlen]
  | succ fuel ih =>
    intro iters samples hlen hsum
    have hlt : iters < mI := by omega
    simp only [turnLoop, if_pos hlt]
    rw [h (samples.length + 1) (by omega)]
    simp only [Bool.false_eq_true, if_neg (by exact fun h => h)]
    exact ih (iters + 1) (samples ++ [get_yaw_angle (env.sensor (samples.length + 1))])
      (by simp [hlen]) (by omega)

/-- When every loop-time sensor read raises, every observed yaw sample is 0. -/
lemma turnLoop_samples_allFail (env : Env) (cond : ℚ → Bool) (mI : ℕ)
    (h : ∀ k, 1 ≤ k → env.sensor k = none) :
    ∀ (fuel iters : ℕ) (samples : List ℚ),
      ∀ y ∈ (turnLoop env cond mI fuel iters samples).2, y ∈ samples ∨ y = 0 := by
  intro fuel
  induction fuel with
  | zero => intro iters samples y hy; simp only [turnLoop] at hy; exact Or.inl hy
  | succ fuel ih =>
    intro iters samples y hy
    by_cases hlt : iters < mI
    · simp only [turnLoop, if_pos hlt] at hy
      have hcur : get_yaw_angle (env.sensor (samples.length + 1)) = 0 := by
        rw [h (samples.length + 1) (by omega)]; rfl
      rw [hcur] at hy
      by_cases hc : cond 0 = true
      · rw [if_pos hc] at hy
        rcases List.mem_append.mp hy with h2 | h2
        · exact Or.inl h2
        · exact Or.inr (List.mem_singleton.mp h2)
      · rw [if_neg hc] at hy
        rcases ih _ _ y hy with h2 | h2
        · rcases List.mem_append.mp h2 with h3 | h3
          · exact Or.inl h3
          · exact Or.inr (List.mem_singleton.mp h3)
        · exact Or.inr h2
    · simp only [turnLoop, if_neg hlt] at hy
      exact Or.inl hy

/-! ### C3: non-positive turn requests fail fast -/

/-- C3: for every `degrees <= 0`, both turn controllers return the failure
value immediately: no command is issued to the actuation interface, the loop
never runs and no yaw is sampled (the `InvalidArgument` rejection of the spec
is realised as the early `return False` at the top of `turn_right` /
`turn_left`, before any motion). -/
theorem C3_nonpositive_degrees_fail_fast (env : Env) (deg : ℚ) (h : deg ≤ 0) :
    turn_right env deg = some ⟨[], 0, [], false⟩ ∧
    turn_left env deg = some ⟨[], 0, [], false⟩ :=
  ⟨by unfold turn_right; rw [if_pos h], by unfold turn_left; rw [if_pos h]⟩

/-- C3 witness: a zero-degree request on the all-zero environment. -/
theorem C3_witness :
    turn_right envZero 0 = some ⟨[], 0, [], false⟩ ∧
    turn_left envZero 0 = some ⟨[], 0, [], false⟩ :=
  C3_nonpositive_degrees_fail_fast envZero 0 le_rfl

/-! ### C1: exactly one stop command per invocation -/

/-- C1: every invocation of the straight-drive controller (any speed other
than the `ZeroDivisionError` value 0) and of the two turn controllers (with a
positive angle, past the fail-fast validation, and a start ladder that does
not propagate an exception) issues exactly one stop command to the actuation
interface, on every exit path: normal completion, timeout at the iteration
cap, and an actuation fault raised mid-loop (straight drive). -/
theorem C1_stop_exactly_once (env : Env) (d s : ℚ) (mI : ℕ) (degR degL : ℚ)
    (hs : s ≠ 0) (hR : 0 < degR) (hL : 0 < degL) (hsf : env.startFault = false) :
    ((move_straight_with_gyro env d s mI).map fun r => r.cmds.count Cmd.stop) = some 1 ∧
    ((turn_right env degR).map fun r => r.cmds.count Cmd.stop) = some 1 ∧
    ((turn_left env degL).map fun r => r.cmds.count Cmd.stop) = some 1 := by
  refine ⟨?_, ?_, ?_⟩
  · simp only [move_straight_with_gyro, hs, hsf, Bool.false_eq_true, if_false]
    obtain ⟨newErrs, hE, hC⟩ :=
      straightLoop_spec env s (get_yaw_angle (env.sensor 0))
        (pyInt (d * (15 * (30 / s)))) mI mI 0 [Cmd.tank s s] []
    rcases hres : straightLoop env s (get_yaw_angle (env.sensor 0))
        (pyInt (d * (15 * (30 / s)))) mI mI 0 [Cmd.tank s s] [] with ⟨iters, cmds, errs, fl⟩
    rw [hres] at hC
    simp only at hC
    have hcount : cmds.count Cmd.stop = 0 := by
      rw [hC, List.count_append]
      have h1 : List.count Cmd.stop [Cmd.tank s s] = 0 := by
        simp [List.count_singleton]
      have h2 : ((newErrs.filter fun e => decide (1 < |e|)).map (codeSteerCmd s)).count
          Cmd.stop = 0 := by
        refine List.count_eq_zero.mpr ?_
        intro hmem
        obtain ⟨e, _, he⟩ := List.mem_map.mp hmem
        exact codeSteerCmd_ne_stop s e he
      omega
    cases fl <;>
      simp [List.count_append, hcount, List.count_singleton]
  · simp only [turn_right, not_le.mpr hR, if_false, hsf, Bool.false_eq_true]
    simp [List.count_singleton, List.count_cons]
  · simp only [turn_left, not_le.mpr hL, if_false, hsf, Bool.false_eq_true]
    simp [List.count_singleton, List.count_cons]

/-- C1 witness: concrete invocations on the all-zero environment with speed 30,
distance 3, iteration cap 1, and 90-degree turns. -/
theorem C1_witness :
    ((move_straight_with_gyro envZero 3 30 1).map fun r => r.cmds.count Cmd.stop) =
      some 1 ∧
    ((turn_right envZero 90).map fun r => r.cmds.count Cmd.stop) = some 1 ∧
    ((turn_left envZero 90).map fun r => r.cmds.count Cmd.stop) = some 1 :=
  C1_stop_exactly_once envZero 3 30 1 90 90 (by norm_num) (by norm_num) (by norm_num) rfl

/-! ### C4: a never-satisfied stop condition runs to the cap -/

/-- C4: if the stop condition is never satisfied by any loop-time yaw sample
(`current <= target + 3` for a right turn, `current >= target - 3` for a left
turn, threshold 3, target = initial minus degrees for right and initial plus
degrees for left), the turn controller samples yaw exactly
`max_iterations = 300` times in its loop and returns `completed = false`
because `iterations < max_iterations` fails at exit. -/
theorem C4_never_reached_times_out (env : Env) (degR degL : ℚ)
    (hR : 0 < degR) (hL : 0 < degL) (hsf : env.startFault = false)
    (hnR : ∀ k, 1 ≤ k →
      ¬ (get_yaw_angle (env.sensor k) ≤ (get_yaw_angle (env.sensor 0) - degR) + 3))
    (hnL : ∀ k, 1 ≤ k →
      ¬ ((get_yaw_angle (env.sensor 0) + degL) - 3 ≤ get_yaw_angle (env.sensor k))) :
    ((turn_right env degR).map fun r => (r.samples.length, r.iterations, r.ret)) =
      some (300, 300, false) ∧
    ((turn_left env degL).map fun r => (r.samples.length, r.iterations, r.ret)) =
      some (300, 300, false) := by
  constructor
  · simp only [turn_right, not_le.mpr hR, if_false, hsf, Bool.false_eq_true]
    have hloop := turnLoop_never env
      (fun y => decide (y ≤ (get_yaw_angle (env.sensor 0) - degR) + 3)) 300
      (fun k hk => decide_eq_false (hnR k hk)) 300 0 [] rfl rfl
    simp only [Option.map_some']
    rw [hloop.1, hloop.2]
    norm_num
  · simp only [turn_left, not_le.mpr hL, if_false, hsf, Bool.false_eq_true]
    have hloop := turnLoop_never env
      (fun y => decide ((get_yaw_angle (env.sensor 0) + degL) - 3 ≤ y)) 300
      (fun k hk => decide_eq_false (hnL k hk)) 300 0 [] rfl rfl
    simp only [Option.map_some']
    rw [hloop.1, hloop.2]
    norm_num

/-- C4 witness: 90-degree turns on the environment whose yaw reads 0 forever:
with targets -90 and +90 neither threshold is ever crossed, so both turns
sample 300 times and report a timeout. -/
theorem C4_witness :
    ((turn_right envZero 90).map fun r => (r.samples.length, r.iterations, r.ret)) =
      some (300, 300, false) ∧
    ((turn_left envZero 90).map fun r => (r.samples.length, r.iterations, r.ret)) =
      some (300, 300, false) :=
  C4_never_reached_times_out envZero 90 90 (by norm_num) (by norm_num) rfl
    (fun k hk => by norm_num [envZero, get_yaw_angle])
    (fun k hk => by norm_num [envZero, get_yaw_angle])

/-! ### C5: the correction law of the straight-drive loop -/

/-- Command-trace structure of every straight-drive run: the start command,
then exactly one corrective command per observed error above the 1-degree
deadband, in order, then the stop command.  Holds on the normal, timeout and
fault exits alike. -/
lemma straight_cmds_structure (env : Env) (d s : ℚ) (mI : ℕ) (hs : s ≠ 0) :
    ∀ r, move_straight_with_gyro env d s mI = some r →
      r.cmds = Cmd.tank s s ::
        (((r.errors.filter fun e => decide (1 < |e|)).map (codeSteerCmd s)) ++ [Cmd.stop]) := by
  intro r hr
  unfold move_straight_with_gyro at hr
  rw [if_neg hs] at hr
  rcases hsf : env.startFault
  · rw [hsf] at hr
    simp only [Bool.false_eq_true, if_false] at hr
    obtain ⟨newErrs, hE, hC⟩ :=
      straightLoop_spec env s (get_yaw_angle (env.sensor 0))
        (pyInt (d * (15 * (30 / s)))) mI mI 0 [Cmd.tank s s] []
    rcases hres : straightLoop env s (get_yaw_angle (env.sensor 0))
        (pyInt (d * (15 * (30 / s)))) mI mI 0 [Cmd.tank s s] [] with ⟨iters, cmds, errs, fl⟩
    rw [hres] at hr hE hC
    simp only at hE hC
    rw [List.nil_append] at hE
    cases fl
    · simp only [Option.some.injEq] at hr
      rw [← hr]
      simp [hC, hE]
    · simp only [Option.some.injEq] at hr
      rw [← hr]
      simp [hC, hE]
  · rw [hsf] at hr
    simp only [if_true] at hr
    simp only [Option.some.injEq] at hr
    rw [← hr]
    simp

/-- C5 (amended): on every iteration of the straight-drive loop, if
`|error| <= 1` (the deadband) no command is issued, so the most recent
command - the symmetric `(nominalSpeed, nominalSpeed)` start command if no
correction has yet been issued - stays in effect; if `|error| > 1` the loop
issues `left = clamp(nominal - s, 10, 100)`, `right = clamp(nominal + s, 10,
100)` where `s = clamp(-trunc(error * 1.5), -100, 100)` and `trunc` is the
`int()` truncation toward zero.  Formally: the command trace of every run is
the start command, then exactly one `codeSteerCmd` per observed error above
the deadband, in order, then the stop command. -/
theorem C5_deadband_and_correction (env : Env) (d s : ℚ) (mI : ℕ) (hs : s ≠ 0) :
    ∀ r, move_straight_with_gyro env d s mI = some r →
      r.cmds = Cmd.tank s s ::
        (((r.errors.filter fun e => decide (1 < |e|)).map (codeSteerCmd s)) ++ [Cmd.stop]) :=
  straight_cmds_structure env d s mI hs

/-! ### C9: corrective wheel speeds are always in [10, 100] -/

/-- C9: every corrective (asymmetric) command the straight-drive controller
issues after the start command has both wheel speeds clamped into `[10, 100]`
- the lower bound is the hardcoded constant 10 - for every error magnitude and
every nominal speed, so no wheel is ever commanded below 10 or in reverse
during the corrective phase of a straight drive. -/
theorem C9_correction_speeds_clamped (env : Env) (d s : ℚ) (mI : ℕ) :
    ∀ r, move_straight_with_gyro env d s mI = some r →
      ∀ l rr : ℚ, Cmd.tank l rr ∈ r.cmds.tail →
        10 ≤ l ∧ l ≤ 100 ∧ 10 ≤ rr ∧ rr ≤ 100 := by
  intro r hr l rr hmem
  by_cases hs : s = 0
  · rw [move_straight_with_gyro, if_pos hs] at hr
    exact Option.noConfusion hr
  · have htail : r.cmds.tail =
        ((r.errors.filter fun e => decide (1 < |e|)).map (codeSteerCmd s)) ++ [Cmd.stop] := by
      rw [straight_cmds_structure env d s mI hs r hr, List.tail_cons]
    rw [htail] at hmem
    rcases List.mem_append.mp hmem with h2 | h2
    · obtain ⟨e, _, he⟩ := List.mem_map.mp h2
      exact codeSteerCmd_bounds s e l rr he
    · exact absurd (List.mem_singleton.mp h2) (fun h => Cmd.noConfusion h)

/-! ### C2: what the controllers actually return -/

/-- On a fault-free run, the straight-drive controller returns exactly the
boolean `iterations < max_iterations`, and the drift it prints equals
`final_yaw - initial_yaw`. -/
lemma move_straight_normal (env : Env) (d s : ℚ) (mI : ℕ) (hs : s ≠ 0)
    (hsf : env.startFault = false) (hmf : ∀ k, env.moveFault k = false) :
    ∀ r, move_straight_with_gyro env d s mI = some r →
      r.ret = decide (r.iterations < mI) ∧
      r.finalError = get_yaw_angle (env.sensor (r.iterations + 1)) -
        get_yaw_angle (env.sensor 0) := by
  intro r hr
  unfold move_straight_with_gyro at hr
  rw [if_neg hs, hsf] at hr
  simp only [Bool.false_eq_true, if_false] at hr
  have hfl := straightLoop_noFault env s (get_yaw_angle (env.sensor 0))
    (pyInt (d * (15 * (30 / s)))) mI hmf mI 0 [Cmd.tank s s] []
  rcases hres : straightLoop env s (get_yaw_angle (env.sensor 0))
      (pyInt (d * (15 * (30 / s)))) mI mI 0 [Cmd.tank s s] [] with ⟨iters, cmds, errs, fl⟩
  rw [hres] at hr hfl
  simp only at hfl
  subst hfl
  simp only [Option.some.injEq] at hr
  rw [← hr]
  exact ⟨rfl, rfl⟩

/-- C2 (amended): the controllers do not return the three-component
`ControlResult` record of the spec; they return only its `completed` boolean.
For the straight drive (fault-free run) the returned boolean equals
`iterations < max_iterations` and the final error `current_yaw - initial_yaw`
is computed and printed but not returned; both turn controllers likewise
return only `iterations < 300`. -/
theorem C2_only_completed_returned (env : Env) (d s : ℚ) (mI : ℕ) (deg : ℚ)
    (hs : s ≠ 0) (hd : 0 < deg) (hsf : env.startFault = false)
    (hmf : ∀ k, env.moveFault k = false) :
    (∀ r, move_straight_with_gyro env d s mI = some r →
      r.ret = decide (r.iterations < mI) ∧
      r.finalError = get_yaw_angle (env.sensor (r.iterations + 1)) -
        get_yaw_angle (env.sensor 0)) ∧
    (∀ r, turn_right env deg = some r → r.ret = decide (r.iterations < 300)) ∧
    (∀ r, turn_left env deg = some r → r.ret = decide (r.iterations < 300)) := by
  refine ⟨move_straight_normal env d s mI hs hsf hmf, ?_, ?_⟩
  · intro r hr
    unfold turn_right at hr
    rw [if_neg (not_le.mpr hd), hsf] at hr
    simp only [Bool.false_eq_true, if_false, Option.some.injEq] at hr
    rw [← hr]
  · intro r hr
    unfold turn_left at hr
    rw [if_neg (not_le.mpr hd), hsf] at hr
    simp only [Bool.false_eq_true, if_false, Option.some.injEq] at hr
    rw [← hr]

/-! ### C10: sensor faults are swallowed as yaw 0 -/

/-- C10: `get_yaw_angle` turns a raising sensor read into the value 0 instead
of propagating a fault.  Consequently, when the sensor fails on every read of
an invocation, the straight-drive loop observes `error = -initial_yaw` on
every iteration, and the turn loops evaluate their stop condition against a
constant observed yaw of 0. -/
theorem C10_sensor_faults_swallowed (env : Env) (d s : ℚ) (mI : ℕ) (deg : ℚ)
    (hfail : ∀ k, env.sensor k = none) :
    get_yaw_angle none = 0 ∧
    (∀ r, move_straight_with_gyro env d s mI = some r →
      ∀ e ∈ r.errors, e = -(get_yaw_angle (env.sensor 0))) ∧
    (∀ r, turn_right env deg = some r → ∀ y ∈ r.samples, y = 0) ∧
    (∀ r, turn_left env deg = some r → ∀ y ∈ r.samples, y = 0) := by
  refine ⟨rfl, ?_, ?_, ?_⟩
  · intro r hr e he
    by_cases hs : s = 0
    · rw [move_straight_with_gyro, if_pos hs] at hr
      exact Option.noConfusion hr
    · unfold move_straight_with_gyro at hr
      rw [if_neg hs] at hr
      rcases hsf : env.startFault
      · rw [hsf] at hr
        simp only [Bool.false_eq_true, if_false] at hr
        have hme := straightLoop_errors_allFail env s (get_yaw_angle (env.sensor 0))
          (pyInt (d * (15 * (30 / s)))) mI (fun k _ => hfail k) mI 0 [Cmd.tank s s] []
        rcases hres : straightLoop env s (get_yaw_angle (env.sensor 0))
            (pyInt (d * (15 * (30 / s)))) mI mI 0 [Cmd.tank s s] [] with ⟨iters, cmds, errs, fl⟩
        rw [hres] at hr hme
        simp only at hme
        cases fl
        · simp only [Option.some.injEq] at hr
          rw [← hr] at he
          rcases hme e he with h2 | h2
          · exact absurd h2 (List.not_mem_nil e)
          · rw [h2]
        · simp only [Option.some.injEq] at hr
          rw [← hr] at he
          rcases hme e he with h2 | h2
          · exact absurd h2 (List.not_mem_nil e)
          · rw [h2]
      · rw [hsf] at hr
        simp only [if_true, Option.some.injEq] at hr
        rw [← hr] at he
        exact absurd he (List.not_mem_nil e)
  · intro r hr y hy
    by_cases hdeg : deg ≤ 0
    · rw [turn_right, if_pos hdeg] at hr
      simp only [Option.some.injEq] at hr
      rw [← hr] at hy
      exact absurd hy (List.not_mem_nil y)
    · unfold turn_right at hr
      rw [if_neg hdeg] at hr
      rcases hsf : env.startFault
      · rw [hsf] at hr
        simp only [Bool.false_eq_true, if_false, Option.some.injEq] at hr
        have hme := turnLoop_samples_allFail env
          (fun y => decide (y ≤ (get_yaw_angle (env.sensor 0) - deg) + 3)) 300
          (fun k hk => hfail k) 300 0 []
        rw [← hr] at hy
        rcases hme y hy with h2 | h2
        · exact absurd h2 (List.not_mem_nil y)
        · exact h2
      · rw [hsf] at hr
        simp only [if_true] at hr
        exact Option.noConfusion hr
  · intro r hr y hy
    by_cases hdeg : deg ≤ 0
    · rw [turn_left, if_pos hdeg] at hr
      simp only [Option.some.injEq] at hr
      rw [← hr] at hy
      exact absurd hy (List.not_mem_nil y)
    · unfold turn_left at hr
      rw [if_neg hdeg] at hr
      rcases hsf : env.startFault
      · rw [hsf] at hr
        simp only [Bool.false_eq_true, if_false, Option.some.injEq] at hr
        have hme := turnLoop_samples_allFail env
          (fun y => decide ((get_yaw_angle (env.sensor 0) + deg) - 3 ≤ y)) 300
          (fun k hk => hfail k) 300 0 []
        rw [← hr] at hy
        rcases hme y hy with h2 | h2
        · exact absurd h2 (List.not_mem_nil y)
        · exact h2
      · rw [hsf] at hr
        simp only [if_true] at hr
        exact Option.noConfusion hr

/-! ### Concrete runs used by the witnesses and counterexamples below -/

lemma envZero_run1 : move_straight_with_gyro envZero 3 30 1 =
    some ⟨[Cmd.tank 30 30, Cmd.stop], 1, [0], 0, false⟩ := by
  norm_num [move_straight_with_gyro, straightLoop, envZero, get_yaw_angle, pyInt]

lemma envZero_run2 : move_straight_with_gyro envZero 3 30 2 =
    some ⟨[Cmd.tank 30 30, Cmd.stop], 2, [0, 0], 0, false⟩ := by
  norm_num [move_straight_with_gyro, straightLoop, envZero, get_yaw_angle, pyInt]

lemma envErr3_run : move_straight_with_gyro envErr3 1 30 1 =
    some ⟨[Cmd.tank 30 30, Cmd.tank 34 26, Cmd.stop], 1, [3], 3, false⟩ := by
  norm_num [move_straight_with_gyro, straightLoop, envErr3, get_yaw_angle, pyInt,
    codeSteerCmd, max_def, min_def]

lemma envNone_run : move_straight_with_gyro envNone 1 30 1 =
    some ⟨[Cmd.tank 30 30, Cmd.stop], 1, [0], 0, false⟩ := by
  norm_num [move_straight_with_gyro, straightLoop, envNone, get_yaw_angle, pyInt]

/-- C2 counterexample: two fault-free straight-drive invocations (caps 1 and 2)
return identical values while executing different numbers of iterations, so
the returned value cannot be a record containing `iterations_used` (the code
returns only a boolean). -/
theorem C2_counterexample :
    ((move_straight_with_gyro envZero 3 30 1).map StraightRun.ret) =
      ((move_straight_with_gyro envZero 3 30 2).map StraightRun.ret) ∧
    ((move_straight_with_gyro envZero 3 30 1).map StraightRun.iterations) ≠
      ((move_straight_with_gyro envZero 3 30 2).map StraightRun.iterations) := by
  rw [envZero_run1, envZero_run2]
  refine ⟨rfl, ?_⟩
  simp

/-- C2 witness: the amended theorem applied to the cap-1 run on the all-zero
environment, which times out after 1 iteration and returns `false`. -/
theorem C2_witness :
    (false : Bool) = decide ((1:ℕ) < 1) ∧
    (0:ℚ) = get_yaw_angle (envZero.sensor (1 + 1)) - get_yaw_angle (envZero.sensor 0) :=
  (C2_only_completed_returned envZero 3 30 1 90 (by norm_num) (by norm_num) rfl
      (fun _ => rfl)).1
    ⟨[Cmd.tank 30 30, Cmd.stop], 1, [0], 0, false⟩ envZero_run1

/-- C5 counterexample: with a constant 3-degree error and nominal speed 30 the
loop issues the command `(34, 26)`, but the spec formula without the `int()`
truncation (`steering = clamp(-error * 1.5, -100, 100)`) prescribes
`(34.5, 25.5)`: the claim's untruncated steering law does not match the code. -/
theorem C5_counterexample :
    ((move_straight_with_gyro envErr3 1 30 1).map StraightRun.cmds) =
      some [Cmd.tank 30 30, Cmd.tank 34 26, Cmd.stop] ∧
    specSteerCmd 30 3 = Cmd.tank (69/2) (51/2) ∧
    (69/2 : ℚ) ≠ 34 := by
  refine ⟨by rw [envErr3_run]; rfl, ?_, by norm_num⟩
  unfold specSteerCmd
  norm_num [max_def, min_def]

/-- C5 witness: the amended trace characterisation applied to the run with a
single 3-degree error, whose trace is start, one correction, stop. -/
theorem C5_witness :
    [Cmd.tank 30 30, Cmd.tank 34 26, Cmd.stop] =
      Cmd.tank 30 30 ::
        ((([(3:ℚ)].filter fun e => decide (1 < |e|)).map (codeSteerCmd 30)) ++ [Cmd.stop]) :=
  C5_deadband_and_correction envErr3 1 30 1 (by norm_num)
    ⟨[Cmd.tank 30 30, Cmd.tank 34 26, Cmd.stop], 1, [3], 3, false⟩ envErr3_run

/-- C9 witness: the clamping theorem applied to the corrective command
`(34, 26)` issued on the 3-degree-error run. -/
theorem C9_witness :
    (10:ℚ) ≤ 34 ∧ (34:ℚ) ≤ 100 ∧ (10:ℚ) ≤ 26 ∧ (26:ℚ) ≤ 100 :=
  C9_correction_speeds_clamped envErr3 1 30 1
    ⟨[Cmd.tank 30 30, Cmd.tank 34 26, Cmd.stop], 1, [3], 3, false⟩ envErr3_run 34 26
    (List.mem_cons_self _ _)

/-- C10 witness: the theorem applied to the environment whose sensor always
raises; the swallowed read yields yaw 0 and the one observed straight-drive
error equals `-initial_yaw = 0`. -/
theorem C10_witness :
    get_yaw_angle none = 0 ∧ (0:ℚ) = -(get_yaw_angle (envNone.sensor 0)) :=
  ⟨(C10_sensor_faults_swallowed envNone 1 30 1 2 (fun _ => rfl)).1,
   (C10_sensor_faults_swallowed envNone 1 30 1 2 (fun _ => rfl)).2.1
     ⟨[Cmd.tank 30 30, Cmd.stop], 1, [0], 0, false⟩ envNone_run 0 (List.mem_singleton.mpr rfl)⟩
